import Mathlib

/-!
Verification development for the Position & Expiry Delivery Engine:
a shallow embedding of `position_manager.py` (position store, strategy
classifier, trade application) and `expiry_delivery_module.py` (index
classification, futures/option expiry processing, cash-summary
aggregation), with theorems settling the specification claims.

Numeric values (Python floats) are embedded as rationals; `round(x, 2)`
is embedded as exact round-half-to-even at two decimal places.
-/

namespace TradePipeline

/-- Round-half-to-even of a rational to an integer (the tie-breaking rule of
Python's builtin `round`). -/
def rhe (x : ℚ) : ℤ :=
  if x - ⌊x⌋ < 1/2 then ⌊x⌋
  else if 1/2 < x - ⌊x⌋ then ⌊x⌋ + 1
  else if ⌊x⌋ % 2 = 0 then ⌊x⌋ else ⌊x⌋ + 1

/-- Embedding of Python `round(x, 2)`: round half-to-even at two decimals. -/
def round2 (x : ℚ) : ℚ := (rhe (100 * x) : ℚ) / 100

theorem rhe_nonneg (x : ℚ) (hx : 0 ≤ x) : 0 ≤ rhe x := by
  have hf : (0 : ℤ) ≤ ⌊x⌋ := Int.floor_nonneg.mpr hx
  unfold rhe
  split
  · exact hf
  · split
    · omega
    · split
      · exact hf
      · omega

theorem round2_nonneg (x : ℚ) (hx : 0 ≤ x) : 0 ≤ round2 x := by
  unfold round2
  have h : 0 ≤ rhe (100 * x) := rhe_nonneg _ (by positivity)
  positivity

theorem round2_zero : round2 0 = 0 := by
  norm_num [round2, rhe]

/-- `listStarts needle hay` decides whether `needle` is a leading segment
of `hay`. -/
def listStarts : List Char → List Char → Bool
  | [], _ => true
  | _ :: _, [] => false
  | a :: as, b :: bs => a = b && listStarts as bs

/-- `listHas needle hay` decides whether `needle` occurs as a contiguous
run inside `hay` (the embedding of Python's `needle in hay` on strings). -/
def listHas (needle : List Char) : List Char → Bool
  | [] => needle.isEmpty
  | b :: bs => listStarts needle (b :: bs) || listHas needle bs

theorem listStarts_iff (n h : List Char) : listStarts n h = true ↔ n <+: h := by
  induction n generalizing h with
  | nil => simp [listStarts]
  | cons a as ih =>
    cases h with
    | nil => simp [listStarts]
    | cons b bs =>
      simp [listStarts, List.cons_prefix_cons, ih, and_comm]

theorem listHas_iff (n h : List Char) : listHas n h = true ↔ n <:+: h := by
  induction h with
  | nil => simp [listHas, List.isEmpty_iff]
  | cons b bs ih =>
    simp only [listHas, Bool.or_eq_true, listStarts_iff, ih,
      List.infix_cons_iff]

/-- Python `needle in hay` on strings. -/
def strHas (needle hay : String) : Bool := listHas needle.data hay.data

/-- Python `str.upper()` (ASCII-faithful). -/
def strUpper (s : String) : String := ⟨s.data.map Char.toUpper⟩

/-! ## Position manager (`position_manager.py`)

`PositionDetails` is the dataclass of the same name; the position store
(`PositionManager.positions`, a Python dict keyed by ticker) is embedded
as an association list with dict update semantics (replace in place when
the key exists, append otherwise). -/

/-- Dataclass `PositionDetails` (`position_manager.py` lines 120-163).
`expiry` is an abstract date stamp (its value is irrelevant to the
claims); numeric fields are rationals. -/
structure PositionDetails where
  ticker : String
  symbol : String
  security_type : String
  expiry : ℤ
  strike : ℚ
  lots : ℚ
  lot_size : ℚ
  qty : ℚ
  strategy : String
  direction : String
  underlying_ticker : String
deriving DecidableEq

/-- The direction recomputation of `PositionDetails.update_qty`
(line 138): Long / Short / Flat from the sign of `lots`. -/
def directionOf (lots : ℚ) : String :=
  if lots > 0 then "Long" else if lots < 0 then "Short" else "Flat"

/-- `PositionDetails.update_qty` (lines 135-138): recompute `qty` and
`direction` from the current `lots`. -/
def update_qty (p : PositionDetails) : PositionDetails :=
  { p with qty := p.lots * p.lot_size, direction := directionOf p.lots }

/-- The strategy classifier as inlined at
`initialize_from_positions` lines 187-190: Put inverts the sign
convention, everything else maps positive lots to FULO. -/
def strategyFor (security_type : String) (lots : ℚ) : String :=
  if security_type = "Put" then
    (if lots > 0 then "FUSH" else "FULO")
  else
    (if lots > 0 then "FULO" else "FUSH")

/-- One record of the `initial_positions` list consumed by
`initialize_from_positions` (attributes read at lines 185-238). -/
structure Seed where
  bloomberg_ticker : String
  symbol : String
  security_type : String
  expiry_date : ℤ
  strike_price : ℚ
  position_lots : ℚ
  lot_size : ℚ
  underlying_ticker : String
deriving DecidableEq

/-- The position store: `PositionManager.positions`, a dict keyed by
ticker. -/
abbrev Store := List (String × PositionDetails)

/-- Dict lookup. -/
def lookupPos : Store → String → Option PositionDetails
  | [], _ => none
  | (k, v) :: rest, t => if k = t then some v else lookupPos rest t

/-- Dict assignment `positions[k] = v`: replace in place if the key
exists, else append. -/
def setPos : Store → String → PositionDetails → Store
  | [], k, v => [(k, v)]
  | (k0, v0) :: rest, k, v =>
      if k0 = k then (k0, v) :: rest else (k0, v0) :: setPos rest k v

/-- Dict deletion `del positions[k]`. -/
def delPos : Store → String → Store
  | [], _ => []
  | (k0, v0) :: rest, k =>
      if k0 = k then rest else (k0, v0) :: delPos rest k

/-- The `PositionDetails` built for one seed by
`initialize_from_positions` (lines 185-211). -/
def seedPosition (s : Seed) : PositionDetails :=
  { ticker := s.bloomberg_ticker
    symbol := s.symbol
    security_type := s.security_type
    expiry := s.expiry_date
    strike := if s.security_type = "Futures" then 0 else s.strike_price
    lots := s.position_lots
    lot_size := s.lot_size
    qty := s.position_lots * s.lot_size
    strategy := strategyFor s.security_type s.position_lots
    direction := if s.position_lots > 0 then "Long" else "Short"
    underlying_ticker := s.underlying_ticker }

/-- `PositionManager.initialize_from_positions` (lines 176-246): clear
the store, then insert one `PositionDetails` per seed.  The source has
no validation of any seed field (in particular none of `lot_size`) and
no exception path. -/
def initialize_from_positions (seeds : List Seed) : Store :=
  seeds.foldl (fun st s => setPos st s.bloomberg_ticker (seedPosition s)) []

/-- The `trade_object` argument of `update_position` (attributes read at
lines 256-276). -/
structure TradeContext where
  symbol : String
  security_type : String
  expiry_date : ℤ
  strike_price : ℚ
  lot_size : ℚ
  underlying_ticker : String
deriving DecidableEq

/-- The fallback expiry used when a position is created without trade
details (`datetime.now()` at line 285); its value is irrelevant to the
claims. -/
def fallbackExpiry : ℤ := 0

/-- First space-separated token of a string (Python
`ticker.split(' ')[0]`, line 283). -/
def firstToken (s : String) : String := (s.splitOn " ").headD ""

/-- `PositionManager.update_position` (lines 248-311).  Absent ticker:
create a position from the trade context (or the degraded fallback with
`lot_size = 100`), storing the signed delta as lots unconditionally.
Present ticker: add the delta; remove the position when
`|new_lots| < 0.0001`, otherwise store the new lots, the caller-supplied
strategy string, and recompute qty/direction. -/
def update_position (st : Store) (ticker : String) (quantity_change : ℚ)
    (security_type : String) (strategy : String)
    (trade_object : Option TradeContext) : Store :=
  match lookupPos st ticker with
  | none =>
      match trade_object with
      | some t =>
          setPos st ticker
            { ticker := ticker
              symbol := t.symbol
              security_type := security_type
              expiry := t.expiry_date
              strike := if security_type = "Futures" then 0 else t.strike_price
              lots := quantity_change
              lot_size := t.lot_size
              qty := quantity_change * t.lot_size
              strategy := strategy
              direction := if quantity_change > 0 then "Long" else "Short"
              underlying_ticker := t.underlying_ticker }
      | none =>
          setPos st ticker
            { ticker := ticker
              symbol := firstToken ticker
              security_type := security_type
              expiry := fallbackExpiry
              strike := 0
              lots := quantity_change
              lot_size := 100
              qty := quantity_change * 100
              strategy := strategy
              direction := if quantity_change > 0 then "Long" else "Short"
              underlying_ticker := "" }
  | some old_position =>
      let new_lots := old_position.lots + quantity_change
      if |new_lots| < 1/10000 then
        delPos st ticker
      else
        setPos st ticker
          (update_qty { old_position with lots := new_lots, strategy := strategy })

/-- One incoming trade, for replaying a trade stream against the store. -/
structure Trade where
  ticker : String
  quantity_change : ℚ
  security_type : String
  strategy : String
  trade_object : Option TradeContext
deriving DecidableEq

/-- Replay a list of trades through `update_position`. -/
def applyAll (trades : List Trade) (st : Store) : Store :=
  trades.foldl
    (fun acc tr =>
      update_position acc tr.ticker tr.quantity_change tr.security_type
        tr.strategy tr.trade_object) st

/-! ## Expiry delivery generator (`expiry_delivery_module.py`)

`Row` is one row of the positions DataFrame handed to
`_process_futures` / `_process_option`; `none` in an `Option` field
embeds a NaN / absent cell.  The constant blank `Expiry` cell of cash
legs is elided.  Rate literals are the source's decimals as exact
rationals (0.001 = 1/1000, 0.00002 = 2/100000, 0.00125 = 1/800,
0.00003 = 3/100000). -/

/-- One positions-DataFrame row as read by the expiry processor. -/
structure Row where
  ticker : Option String
  symbol : String
  security_type : String
  expiry : ℤ
  strike : Option ℚ
  lots : ℚ
  lot_size : ℚ
  underlying : Option String
deriving DecidableEq

/-- `ExpiryDeliveryGenerator._is_index_product` (lines 168-173): NaN
tickers are not index products; otherwise test the uppercased ticker
for the literal substrings INDEX, NIFTY, NZ, AF1, NSEBANK. -/
def is_index_product (ticker : Option String) : Bool :=
  match ticker with
  | none => false
  | some t =>
      let u := strUpper t
      strHas "INDEX" u || (strHas "NIFTY" u || strHas "NZ" u ||
        strHas "AF1" u || strHas "NSEBANK" u)

/-- Underlying resolution of `_process_futures` (lines 184-194).
`none` embeds the `TypeError` Python raises when both the `Underlying`
cell and the ticker are NaN (caught upstream as an error row). -/
def futuresUnderlying (row : Row) : Option String :=
  match row.underlying with
  | some u => some u
  | none =>
      match row.ticker with
      | none => none
      | some t =>
          if strHas " IS Equity" t then some ((t.splitOn "=").headD "" ++ " IS Equity")
          else if strHas " Index" t then some ((t.splitOn " ").headD "" ++ " Index")
          else some row.symbol

/-- Underlying resolution of `_process_option` (lines 251-262). -/
def optionUnderlying (row : Row) : Option String :=
  match row.underlying with
  | some u => some u
  | none =>
      match row.ticker with
      | none => none
      | some t =>
          if strHas " IS " t then some ((t.splitOn " IS ").headD "" ++ " IS Equity")
          else if strHas " Index" t then some ((t.splitOn " ").headD "" ++ " Index")
          else some row.symbol

/-- A derivatives-sheet entry (the `derivative` dict of
`_process_futures` / `_process_option`); `strike = none` embeds the
blank strike of futures legs. -/
structure Deriv where
  underlying : String
  symbol : Option String
  expiry : ℤ
  buy_sell : String
  strategy : String
  position : ℚ
  price : ℚ
  security_type : String
  strike : Option ℚ
  lot_size : ℚ
  tradenotes : String
deriving DecidableEq

/-- A cash-sheet entry (the `cash` dict of `_process_futures` /
`_process_option`); tax cells hold the already-rounded values the
source stores. -/
structure CashLeg where
  underlying : String
  symbol : String
  buy_sell : String
  strategy : String
  position : ℚ
  price : ℚ
  security_type : String
  tradenotes : String
  stt : ℚ
  stamp_duty : ℚ
  taxes : ℚ
deriving DecidableEq

/-- The strike read at line 244: `float(row['Strike'])` when the cell
is present, else 0. -/
def strikeOf (row : Row) : ℚ :=
  match row.strike with
  | some s => s
  | none => 0

/-- `ExpiryDeliveryGenerator._is_option_itm` (lines 355-361). -/
def is_option_itm (option_type : String) (strike spot_price : ℚ) : Bool :=
  if option_type = "Call" then spot_price > strike
  else if option_type = "Put" then spot_price < strike
  else false

/-- The intrinsic value as computed at lines 316 and 321 (Call:
price − strike; otherwise strike − price). -/
def intrinsicValue (option_type : String) (strike last_price : ℚ) : ℚ :=
  if option_type = "Call" then last_price - strike else strike - last_price

/-- `ExpiryDeliveryGenerator._process_futures` (lines 175-238). -/
def process_futures (row : Row) (last_price : ℚ) :
    Option (Deriv × Option CashLeg) :=
  match futuresUnderlying row with
  | none => none
  | some underlying =>
      let position := row.lots
      let lot_size := row.lot_size
      let is_index := is_index_product row.ticker
      let derivative : Deriv :=
        { underlying := underlying
          symbol := row.ticker
          expiry := row.expiry
          buy_sell := if position > 0 then "Sell" else "Buy"
          strategy := if position > 0 then "FULO" else "FUSH"
          position := |position|
          price := last_price
          security_type := "Futures"
          strike := none
          lot_size := lot_size
          tradenotes := "" }
      let cash : Option CashLeg :=
        if is_index then none
        else
          let cash_quantity := |position| * lot_size
          let stt := cash_quantity * last_price * (1/1000)
          let stamp_duty := cash_quantity * last_price * (2/100000)
          let taxes := stt + stamp_duty
          some
            { underlying := underlying
              symbol := underlying
              buy_sell := if position > 0 then "Buy" else "Sell"
              strategy := "EQLO2"
              position := cash_quantity
              price := last_price
              security_type := "CASH"
              tradenotes := ""
              stt := round2 stt
              stamp_duty := round2 stamp_duty
              taxes := round2 taxes }
      some (derivative, cash)

/-- `ExpiryDeliveryGenerator._process_option` (lines 240-353). -/
def process_option (row : Row) (last_price : ℚ) :
    Option (Deriv × Option CashLeg) :=
  match optionUnderlying row with
  | none => none
  | some underlying =>
      let position := row.lots
      let lot_size := row.lot_size
      let strike : ℚ := strikeOf row
      let option_type := row.security_type
      let is_index := is_index_product row.ticker
      let is_itm := is_option_itm option_type strike last_price
      let bs_strat : String × String :=
        if option_type = "Call" then
          ((if position > 0 then "Sell" else "Buy"),
           (if position > 0 then "FULO" else "FUSH"))
        else
          ((if position > 0 then "Sell" else "Buy"),
           (if position > 0 then "FUSH" else "FULO"))
      let deriv_buy_sell := bs_strat.1
      let deriv_strategy := bs_strat.2
      let deriv_price : ℚ :=
        if is_index && is_itm then
          (if option_type = "Call" then max 0 (last_price - strike)
           else max 0 (strike - last_price))
        else 0
      let tradenotes : String :=
        if is_itm && !is_index then
          (if deriv_buy_sell = "Buy" then "A" else "E")
        else ""
      let derivative : Deriv :=
        { underlying := underlying
          symbol := row.ticker
          expiry := row.expiry
          buy_sell := deriv_buy_sell
          strategy := deriv_strategy
          position := |position|
          price := deriv_price
          security_type := option_type
          strike := some strike
          lot_size := lot_size
          tradenotes := tradenotes }
      let cash : Option CashLeg :=
        if is_itm && !is_index then
          let cash_quantity := |position| * lot_size
          let cash_buy_sell :=
            if option_type = "Call" then
              (if position > 0 then "Buy" else "Sell")
            else
              (if position > 0 then "Sell" else "Buy")
          let intrinsic_value := intrinsicValue option_type strike last_price
          let stt : ℚ :=
            if position > 0 then cash_quantity * max 0 intrinsic_value * (1/800)
            else 0
          let stamp_duty : ℚ :=
            if position > 0 then cash_quantity * strike * (3/100000)
            else 0
          let taxes := stt + stamp_duty
          let cash_tradenotes := if position > 0 then "E" else "A"
          some
            { underlying := underlying
              symbol := underlying
              buy_sell := cash_buy_sell
              strategy := "EQLO2"
              position := cash_quantity
              price := strike
              security_type := "CASH"
              tradenotes := cash_tradenotes
              stt := round2 stt
              stamp_duty := round2 stamp_duty
              taxes := round2 taxes }
        else none
      some (derivative, cash)

/-! ## Net settlement aggregator (`_generate_cash_summary`, lines 363-460)

Summary cells are heterogeneous in the source (numbers, blanks, dashes);
numeric cells are embedded as `Option ℚ` with `none` for a non-numeric
cell. -/

/-- One row of the cash summary table. -/
structure SumRow where
  underlying : String
  row_type : String
  buy_sell : String
  quantity : Option ℚ
  price : Option ℚ
  consideration : Option ℚ
  stt : Option ℚ
  stamp_duty : Option ℚ
  taxes : Option ℚ
  tradenotes : String
deriving DecidableEq

/-- pandas `Series.unique`: distinct values in first-encounter order. -/
def uniqueKeys (l : List String) : List String :=
  l.foldl (fun acc x => if x ∈ acc then acc else acc ++ [x]) []

/-- Signed consideration of one cash trade (line 384): +qty×price for a
Buy, −qty×price otherwise. -/
def consideration (tr : CashLeg) : ℚ :=
  if tr.buy_sell = "Buy" then tr.position * tr.price else -(tr.position * tr.price)

/-- Total buy consideration for one underlying (line 407). -/
def buyConsideration (cash : List CashLeg) (u : String) : ℚ :=
  ((cash.filter fun tr => tr.underlying = u && tr.buy_sell = "Buy").map
    fun tr => tr.position * tr.price).sum

/-- Total sell consideration for one underlying (line 408). -/
def sellConsideration (cash : List CashLeg) (u : String) : ℚ :=
  ((cash.filter fun tr => tr.underlying = u && tr.buy_sell = "Sell").map
    fun tr => tr.position * tr.price).sum

/-- Net consideration for one underlying (line 409): net buy minus net
sell consideration. -/
def netConsideration (cash : List CashLeg) (u : String) : ℚ :=
  buyConsideration cash u - sellConsideration cash u

/-- Net deliverable quantity for one underlying (lines 403-405). -/
def netQuantity (cash : List CashLeg) (u : String) : ℚ :=
  ((cash.filter fun tr => tr.underlying = u && tr.buy_sell = "Buy").map
    fun tr => tr.position).sum -
  ((cash.filter fun tr => tr.underlying = u && tr.buy_sell = "Sell").map
    fun tr => tr.position).sum

/-- Summed STT over one underlying's trades (line 411). -/
def totalStt (cash : List CashLeg) (u : String) : ℚ :=
  ((cash.filter fun tr => tr.underlying = u).map fun tr => tr.stt).sum

/-- Summed stamp duty over one underlying's trades (line 412). -/
def totalStamp (cash : List CashLeg) (u : String) : ℚ :=
  ((cash.filter fun tr => tr.underlying = u).map fun tr => tr.stamp_duty).sum

/-- Summed taxes over one underlying's trades (line 413). -/
def totalTaxes (cash : List CashLeg) (u : String) : ℚ :=
  ((cash.filter fun tr => tr.underlying = u).map fun tr => tr.taxes).sum

/-- The per-trade rows emitted for one underlying (lines 381-397). -/
def tradeRows (cash : List CashLeg) (u : String) : List SumRow :=
  (cash.filter fun tr => tr.underlying = u).map fun tr =>
    { underlying := u
      row_type := "Trade"
      buy_sell := tr.buy_sell
      quantity := some tr.position
      price := some tr.price
      consideration := some (round2 (consideration tr))
      stt := some tr.stt
      stamp_duty := some tr.stamp_duty
      taxes := some tr.taxes
      tradenotes := tr.tradenotes }

/-- The NET DELIVERABLE row for one underlying (lines 422-433). -/
def netRow (cash : List CashLeg) (u : String) : SumRow :=
  { underlying := u
    row_type := "NET DELIVERABLE"
    buy_sell := "NET"
    quantity := some (netQuantity cash u)
    price := none
    consideration := some (round2 (netConsideration cash u))
    stt := some (round2 (totalStt cash u))
    stamp_duty := some (round2 (totalStamp cash u))
    taxes := some (round2 (totalTaxes cash u))
    tradenotes := "" }

/-- The blank separator row between underlyings (lines 437-439). -/
def blankRow : SumRow :=
  { underlying := "", row_type := "", buy_sell := "", quantity := none,
    price := none, consideration := none, stt := none, stamp_duty := none,
    taxes := none, tradenotes := "" }

/-- The dashed separator row before the grand total (lines 442-444). -/
def dashRow : SumRow :=
  { underlying := "---", row_type := "---", buy_sell := "---", quantity := none,
    price := none, consideration := none, stt := none, stamp_duty := none,
    taxes := none, tradenotes := "---" }

/-- The GRAND TOTAL row (lines 447-458), from the four grand-total
accumulators. -/
def grandRow (c s1 s2 s3 : ℚ) : SumRow :=
  { underlying := "GRAND TOTAL"
    row_type := "ALL POSITIONS"
    buy_sell := ""
    quantity := none
    price := none
    consideration := some (round2 c)
    stt := some (round2 s1)
    stamp_duty := some (round2 s2)
    taxes := some (round2 s3)
    tradenotes := "" }

/-- Output of the per-underlying loop: emitted rows plus the four
grand-total accumulators (lines 370-439). -/
structure LoopOut where
  rows : List SumRow
  gCons : ℚ
  gStt : ℚ
  gStamp : ℚ
  gTaxes : ℚ
deriving DecidableEq

/-- The per-underlying loop of `_generate_cash_summary`: for each
underlying, its trade rows, its NET DELIVERABLE row, and (except after
the last underlying) a blank separator; the grand totals accumulate the
per-underlying nets. -/
def summaryLoop (cash : List CashLeg) (lastU : String) :
    List String → LoopOut
  | [] => ⟨[], 0, 0, 0, 0⟩
  | u :: rest =>
      let r := summaryLoop cash lastU rest
      ⟨tradeRows cash u ++ [netRow cash u] ++
         (if u = lastU then [] else [blankRow]) ++ r.rows,
       netConsideration cash u + r.gCons,
       totalStt cash u + r.gStt,
       totalStamp cash u + r.gStamp,
       totalTaxes cash u + r.gTaxes⟩

/-- `ExpiryDeliveryGenerator._generate_cash_summary` (lines 363-460):
empty input yields an empty table, otherwise the per-underlying rows
followed by the dashed separator and the GRAND TOTAL row. -/
def generate_cash_summary (cash : List CashLeg) : List SumRow :=
  if cash = [] then []
  else
    let us := uniqueKeys (cash.map fun tr => tr.underlying)
    let r := summaryLoop cash (us.getLastD "") us
    r.rows ++ [dashRow, grandRow r.gCons r.gStt r.gStamp r.gTaxes]

/-! ## Store lemmas

A Python dict cannot hold duplicate keys; `WFStore` is that
well-formedness, preserved by every store operation. -/

/-- Key uniqueness of the position store. -/
def WFStore (st : Store) : Prop := (st.map Prod.fst).Nodup

instance : DecidablePred WFStore := fun st =>
  inferInstanceAs (Decidable ((st.map Prod.fst).Nodup))

theorem lookup_set_self (st : Store) (k : String) (v : PositionDetails) :
    lookupPos (setPos st k v) k = some v := by
  induction st with
  | nil => simp [setPos, lookupPos]
  | cons hd tl ih =>
      obtain ⟨k0, v0⟩ := hd
      by_cases h : k0 = k <;> simp [setPos, lookupPos, h, ih]

theorem lookup_set_ne (st : Store) (k t : String) (v : PositionDetails)
    (h : k ≠ t) : lookupPos (setPos st k v) t = lookupPos st t := by
  induction st with
  | nil => simp [setPos, lookupPos, h]
  | cons hd tl ih =>
      obtain ⟨k0, v0⟩ := hd
      by_cases h0 : k0 = k
      · subst h0; simp [setPos, lookupPos, h, Ne.symm h, ih]
      · by_cases h1 : k0 = t <;>
          simp [setPos, lookupPos, h0, h1, Ne.symm h, ih]

theorem lookup_del_ne (st : Store) (k t : String) (h : k ≠ t) :
    lookupPos (delPos st k) t = lookupPos st t := by
  induction st with
  | nil => simp [delPos, lookupPos]
  | cons hd tl ih =>
      obtain ⟨k0, v0⟩ := hd
      by_cases h0 : k0 = k
      · subst h0; simp [delPos, lookupPos, h, Ne.symm h, ih]
      · by_cases h1 : k0 = t <;>
          simp [delPos, lookupPos, h0, h1, Ne.symm h, ih]

theorem lookup_eq_none_of_not_mem (st : Store) (t : String)
    (h : t ∉ st.map Prod.fst) : lookupPos st t = none := by
  induction st with
  | nil => simp [lookupPos]
  | cons hd tl ih =>
      obtain ⟨k0, v0⟩ := hd
      simp only [List.map_cons, List.mem_cons] at h
      push_neg at h
      simp [lookupPos, Ne.symm h.1, ih h.2]

theorem lookup_del_self (st : Store) (k : String) (h : WFStore st) :
    lookupPos (delPos st k) k = none := by
  induction st with
  | nil => simp [delPos, lookupPos]
  | cons hd tl ih =>
      obtain ⟨k0, v0⟩ := hd
      simp only [WFStore, List.map_cons, List.nodup_cons] at h
      by_cases h0 : k0 = k
      · subst h0
        simpa [delPos] using lookup_eq_none_of_not_mem tl k0 h.1
      · simp [delPos, lookupPos, h0, ih h.2]

theorem mem_keys_set (st : Store) (k t : String) (v : PositionDetails) :
    t ∈ (setPos st k v).map Prod.fst ↔ t ∈ st.map Prod.fst ∨ t = k := by
  induction st with
  | nil => simp [setPos]
  | cons hd tl ih =>
      obtain ⟨k0, v0⟩ := hd
      by_cases h0 : k0 = k
      · subst h0; simp [setPos]; tauto
      · simp [setPos, h0, ih]; tauto

theorem wf_set (st : Store) (k : String) (v : PositionDetails)
    (h : WFStore st) : WFStore (setPos st k v) := by
  induction st with
  | nil => simp [WFStore, setPos]
  | cons hd tl ih =>
      obtain ⟨k0, v0⟩ := hd
      by_cases h0 : k0 = k
      · subst h0
        have hset : setPos ((k0, v0) :: tl) k0 v = (k0, v) :: tl := by
          simp [setPos]
        rw [hset]
        simp only [WFStore, List.map_cons, List.nodup_cons] at h ⊢
        exact ⟨h.1, h.2⟩
      · simp only [setPos, if_neg h0]
        simp only [WFStore, List.map_cons, List.nodup_cons] at h ⊢
        refine ⟨fun hmem => ?_, ih h.2⟩
        rcases (mem_keys_set tl k k0 v).mp hmem with hin | heq
        · exact h.1 hin
        · exact h0 heq

theorem del_sublist (st : Store) (k : String) :
    List.Sublist (delPos st k) st := by
  induction st with
  | nil => simp [delPos]
  | cons hd tl ih =>
      obtain ⟨k0, v0⟩ := hd
      by_cases h0 : k0 = k
      · simp [delPos, h0]
      · simpa [delPos, h0] using ih.cons₂ (k0, v0)

theorem wf_del (st : Store) (k : String) (h : WFStore st) :
    WFStore (delPos st k) := by
  exact List.Nodup.sublist ((del_sublist st k).map Prod.fst) h

theorem wf_update (st : Store) (ticker : String) (qc : ℚ)
    (sec strat : String) (ctx : Option TradeContext) (h : WFStore st) :
    WFStore (update_position st ticker qc sec strat ctx) := by
  unfold update_position
  cases lookupPos st ticker with
  | none => cases ctx <;> exact wf_set st ticker _ h
  | some p =>
      dsimp only
      split
      · exact wf_del st ticker h
      · exact wf_set st ticker _ h

theorem lookup_update_ne (st : Store) (ticker : String) (qc : ℚ)
    (sec strat : String) (ctx : Option TradeContext) (t : String)
    (h : ticker ≠ t) :
    lookupPos (update_position st ticker qc sec strat ctx) t =
      lookupPos st t := by
  unfold update_position
  cases lookupPos st ticker with
  | none => cases ctx <;> exact lookup_set_ne st ticker t _ h
  | some p =>
      dsimp only
      split
      · exact lookup_del_ne st ticker t h
      · exact lookup_set_ne st ticker t _ h

theorem applyAll_absent (trades : List Trade) (st : Store) (t : String)
    (h : lookupPos st t = none)
    (htr : ∀ tr ∈ trades, tr.ticker ≠ t) :
    lookupPos (applyAll trades st) t = none := by
  induction trades generalizing st with
  | nil => simpa [applyAll] using h
  | cons tr rest ih =>
      have hne : tr.ticker ≠ t := htr tr (List.mem_cons_self tr rest)
      have hstep :
          lookupPos
            (update_position st tr.ticker tr.quantity_change
              tr.security_type tr.strategy tr.trade_object) t = none := by
        rw [lookup_update_ne _ _ _ _ _ _ _ hne]; exact h
      simpa [applyAll] using
        ih _ hstep (fun x hx => htr x (List.mem_cons_of_mem tr hx))

/-! ## Concrete inputs and evaluations used by witnesses and
counterexamples -/

/-- Scenario A: a long single-stock futures position, 10 lots of 25. -/
def rowFut10 : Row :=
  { ticker := some "ABC=H6 IS Equity", symbol := "ABC",
    security_type := "Futures", expiry := 0, strike := none, lots := 10,
    lot_size := 25, underlying := some "ABC IS Equity" }

/-- The derivative leg Scenario A produces. -/
def derivA : Deriv :=
  { underlying := "ABC IS Equity", symbol := some "ABC=H6 IS Equity",
    expiry := 0, buy_sell := "Sell", strategy := "FULO", position := 10,
    price := 100, security_type := "Futures", strike := none,
    lot_size := 25, tradenotes := "" }

/-- The cash leg Scenario A produces. -/
def cashA : CashLeg :=
  { underlying := "ABC IS Equity", symbol := "ABC IS Equity",
    buy_sell := "Buy", strategy := "EQLO2", position := 250, price := 100,
    security_type := "CASH", tradenotes := "", stt := 25,
    stamp_duty := 1/2, taxes := 51/2 }

theorem evalA : process_futures rowFut10 100 = some (derivA, some cashA) := by
  have hidx : is_index_product (some "ABC=H6 IS Equity") = false := by decide
  simp only [process_futures, rowFut10, futuresUnderlying, hidx]
  norm_num [hidx, derivA, cashA, round2, rhe]

/-- A long single-stock futures position of 1 lot of 1, settling at a
tiny price. -/
def rowFutTiny : Row :=
  { ticker := some "XYZ=M6 IS Equity", symbol := "XYZ",
    security_type := "Futures", expiry := 0, strike := none, lots := 1,
    lot_size := 1, underlying := some "XYZ IS Equity" }

/-- The derivative leg `rowFutTiny` produces at price 1/10. -/
def derivTiny : Deriv :=
  { underlying := "XYZ IS Equity", symbol := some "XYZ=M6 IS Equity",
    expiry := 0, buy_sell := "Sell", strategy := "FULO", position := 1,
    price := 1/10, security_type := "Futures", strike := none,
    lot_size := 1, tradenotes := "" }

/-- The cash leg `rowFutTiny` produces at price 1/10: all three tax
cells round to zero. -/
def cashTiny : CashLeg :=
  { underlying := "XYZ IS Equity", symbol := "XYZ IS Equity",
    buy_sell := "Buy", strategy := "EQLO2", position := 1, price := 1/10,
    security_type := "CASH", tradenotes := "", stt := 0, stamp_duty := 0,
    taxes := 0 }

theorem evalTinyF :
    process_futures rowFutTiny (1/10) = some (derivTiny, some cashTiny) := by
  have hidx : is_index_product (some "XYZ=M6 IS Equity") = false := by decide
  simp only [process_futures, rowFutTiny, futuresUnderlying, hidx]
  norm_num [hidx, derivTiny, cashTiny, round2, rhe]

/-- Scenario B: a long single-stock call, 5 lots of 50, strike 200. -/
def rowCallB : Row :=
  { ticker := some "ABCD C200 Equity", symbol := "ABCD",
    security_type := "Call", expiry := 0, strike := some 200, lots := 5,
    lot_size := 50, underlying := some "ABCD IS Equity" }

/-- The derivative leg Scenario B produces at price 250. -/
def derivB : Deriv :=
  { underlying := "ABCD IS Equity", symbol := some "ABCD C200 Equity",
    expiry := 0, buy_sell := "Sell", strategy := "FULO", position := 5,
    price := 0, security_type := "Call", strike := some 200,
    lot_size := 50, tradenotes := "E" }

/-- The cash leg Scenario B produces at price 250 (stored taxes are the
rounded values: 15.625 rounds half-to-even to 15.62, 17.125 to 17.12). -/
def cashB : CashLeg :=
  { underlying := "ABCD IS Equity", symbol := "ABCD IS Equity",
    buy_sell := "Buy", strategy := "EQLO2", position := 250, price := 200,
    security_type := "CASH", tradenotes := "E", stt := 781/50,
    stamp_duty := 3/2, taxes := 428/25 }

theorem evalB : process_option rowCallB 250 = some (derivB, some cashB) := by
  have hidx : is_index_product (some "ABCD C200 Equity") = false := by decide
  simp only [process_option, rowCallB, optionUnderlying, hidx]
  norm_num [hidx, derivB, cashB, is_option_itm, intrinsicValue, strikeOf,
    round2, rhe]
  decide

/-- A long single-stock call of 1 lot of 1, strike 1, whose taxes all
round to zero. -/
def rowCallTiny : Row :=
  { ticker := some "PQR C1 Equity", symbol := "PQR",
    security_type := "Call", expiry := 0, strike := some 1, lots := 1,
    lot_size := 1, underlying := some "PQR IS Equity" }

/-- The derivative leg `rowCallTiny` produces at price 2. -/
def derivTinyC : Deriv :=
  { underlying := "PQR IS Equity", symbol := some "PQR C1 Equity",
    expiry := 0, buy_sell := "Sell", strategy := "FULO", position := 1,
    price := 0, security_type := "Call", strike := some 1, lot_size := 1,
    tradenotes := "E" }

/-- The cash leg `rowCallTiny` produces at price 2: the exact STT 1/800
is stored as 0 after rounding. -/
def cashTinyC : CashLeg :=
  { underlying := "PQR IS Equity", symbol := "PQR IS Equity",
    buy_sell := "Buy", strategy := "EQLO2", position := 1, price := 1,
    security_type := "CASH", tradenotes := "E", stt := 0, stamp_duty := 0,
    taxes := 0 }

theorem evalTinyC :
    process_option rowCallTiny 2 = some (derivTinyC, some cashTinyC) := by
  have hidx : is_index_product (some "PQR C1 Equity") = false := by decide
  simp only [process_option, rowCallTiny, optionUnderlying, hidx]
  norm_num [hidx, derivTinyC, cashTinyC, is_option_itm, intrinsicValue,
    strikeOf, round2, rhe]
  decide

/-- A single-stock-looking futures row whose ticker MONZA happens to
contain the substring NZ. -/
def rowFutNZ : Row :=
  { ticker := some "MONZA IS Equity", symbol := "MONZA",
    security_type := "Futures", expiry := 0, strike := none, lots := 2,
    lot_size := 10, underlying := some "MONZA IS Equity" }

/-- The derivative leg `rowFutNZ` produces at price 50. -/
def derivNZ : Deriv :=
  { underlying := "MONZA IS Equity", symbol := some "MONZA IS Equity",
    expiry := 0, buy_sell := "Sell", strategy := "FULO", position := 2,
    price := 50, security_type := "Futures", strike := none,
    lot_size := 10, tradenotes := "" }

theorem evalNZ : process_futures rowFutNZ 50 = some (derivNZ, none) := by
  have hidx : is_index_product (some "MONZA IS Equity") = true := by decide
  simp only [process_futures, rowFutNZ, futuresUnderlying, hidx]
  norm_num [hidx, derivNZ]

/-- Ingesting a batch whose final record is `s` stores `s` (dict
last-writer-wins) as `seedPosition s`, with no validation of any field. -/
theorem init_stores_last (seeds : List Seed) (s : Seed) :
    lookupPos (initialize_from_positions (seeds ++ [s])) s.bloomberg_ticker =
      some (seedPosition s) := by
  unfold initialize_from_positions
  rw [List.foldl_append]
  exact lookup_set_self _ _ _

/-- A trade context used when creating positions in examples. -/
def ctx0 : TradeContext :=
  { symbol := "TST", security_type := "Futures", expiry_date := 0,
    strike_price := 0, lot_size := 100, underlying_ticker := "TST IS Equity" }

/-- A stored long futures position of 10 lots. -/
def pos0 : PositionDetails :=
  { ticker := "T", symbol := "TST", security_type := "Futures", expiry := 0,
    strike := 0, lots := 10, lot_size := 50, qty := 500, strategy := "FULO",
    direction := "Long", underlying_ticker := "TST IS Equity" }

/-- A one-position store holding `pos0` under ticker T. -/
def st0 : Store := [("T", pos0)]

/-- A trade touching an unrelated ticker U. -/
def tradeU : Trade :=
  { ticker := "U", quantity_change := 1, security_type := "Futures",
    strategy := "FULO", trade_object := none }

/-- Store after creating T with +5 lots tagged FULO. -/
def st1 : Store := update_position [] "T" 5 "Futures" "FULO" (some ctx0)

/-- Store after a −2-lot trade on T carrying the tag FUSH: the position
stays long (3 lots) yet keeps the caller-supplied FUSH tag. -/
def st2 : Store := update_position st1 "T" (-2) "Futures" "FUSH" none

/-- The position stored in `st2` under T. -/
def pos2 : PositionDetails :=
  { ticker := "T", symbol := "TST", security_type := "Futures", expiry := 0,
    strike := 0, lots := 3, lot_size := 100, qty := 300, strategy := "FUSH",
    direction := "Long", underlying_ticker := "TST IS Equity" }

theorem evalSt2 : lookupPos st2 "T" = some pos2 := by
  have h1 : st1 =
      [("T",
        { ticker := "T", symbol := "TST", security_type := "Futures",
          expiry := 0, strike := 0, lots := 5, lot_size := 100, qty := 500,
          strategy := "FULO", direction := "Long",
          underlying_ticker := "TST IS Equity" })] := by
    simp only [st1, update_position, lookupPos, ctx0, setPos]
    norm_num
  simp only [st2, update_position, h1, lookupPos, if_pos]
  norm_num [setPos, update_qty, directionOf, lookupPos, pos2, ctx0]

/-- A seed record with `lot_size = 0`. -/
def seedBad : Seed :=
  { bloomberg_ticker := "BAD", symbol := "BAD", security_type := "Futures",
    expiry_date := 0, strike_price := 0, position_lots := 5, lot_size := 0,
    underlying_ticker := "BAD IS Equity" }

/-- A seed record with zero lots. -/
def seedZero : Seed :=
  { bloomberg_ticker := "Z", symbol := "Z", security_type := "Futures",
    expiry_date := 0, strike_price := 0, position_lots := 0, lot_size := 10,
    underlying_ticker := "Z IS Equity" }

/-- A Buy cash leg on underlying A at the tiny price 1/250. -/
def legPA : CashLeg :=
  { underlying := "A", symbol := "A", buy_sell := "Buy", strategy := "EQLO2",
    position := 1, price := 1/250, security_type := "CASH", tradenotes := "",
    stt := 0, stamp_duty := 0, taxes := 0 }

/-- A Buy cash leg on underlying B at the tiny price 1/250. -/
def legPB : CashLeg :=
  { underlying := "B", symbol := "B", buy_sell := "Buy", strategy := "EQLO2",
    position := 1, price := 1/250, security_type := "CASH", tradenotes := "",
    stt := 0, stamp_duty := 0, taxes := 0 }

/-- A two-underlying cash-leg list on which the grand-total cell differs
from both the sum of exact net considerations and the sum of the rounded
NET cells. -/
def cashP : List CashLeg := [legPA, legPB]

/-- The grand-total accumulators of the per-underlying loop are the
sums of the per-underlying nets. -/
theorem summaryLoop_totals (cash : List CashLeg) (lastU : String)
    (us : List String) :
    (summaryLoop cash lastU us).gCons =
        (us.map (netConsideration cash)).sum ∧
      (summaryLoop cash lastU us).gStt = (us.map (totalStt cash)).sum ∧
      (summaryLoop cash lastU us).gStamp = (us.map (totalStamp cash)).sum ∧
      (summaryLoop cash lastU us).gTaxes = (us.map (totalTaxes cash)).sum := by
  induction us with
  | nil => simp [summaryLoop]
  | cons u rest ih =>
      simp [summaryLoop, ih.1, ih.2.1, ih.2.2.1, ih.2.2.2]

/-! ## Claims -/

/-- C1 (amended): for every futures position processed at expiry, the
derivative closing leg's side is Sell if lots > 0 and Buy if lots < 0;
the strategy tag keeps the closed position's own convention — FULO when
closing a long, FUSH when closing a short — rather than flipping to the
opposite one. -/
theorem c1_futures_close_side_and_tag (row : Row) (price : ℚ) (d : Deriv)
    (c : Option CashLeg) (_hsec : row.security_type = "Futures")
    (h : process_futures row price = some (d, c)) :
    (row.lots > 0 → d.buy_sell = "Sell" ∧ d.strategy = "FULO") ∧
    (row.lots < 0 → d.buy_sell = "Buy" ∧ d.strategy = "FUSH") := by
  unfold process_futures at h
  cases hu : futuresUnderlying row with
  | none => rw [hu] at h; exact absurd h (by simp)
  | some u =>
      rw [hu] at h
      simp only [Option.some.injEq, Prod.mk.injEq] at h
      obtain ⟨hd, hc⟩ := h
      subst hd
      constructor
      · intro hl
        simp [hl]
      · intro hl
        simp [hl.asymm]

/-- Witness for C1 at Scenario A: a long futures position closes with a
Sell leg tagged FULO. -/
theorem c1_witness :
    rowFut10.lots > 0 ∧
      derivA.buy_sell = "Sell" ∧ derivA.strategy = "FULO" :=
  ⟨by norm_num [rowFut10],
   (c1_futures_close_side_and_tag rowFut10 100 derivA (some cashA) rfl
      evalA).1 (by norm_num [rowFut10])⟩

/-- Counterexample to C1 as stated: closing the long futures position of
Scenario A tags the derivative leg FULO, not the flipped FUSH the claim
asserts. -/
theorem c1_counterexample :
    rowFut10.lots > 0 ∧
      process_futures rowFut10 100 = some (derivA, some cashA) ∧
      derivA.strategy ≠ "FUSH" :=
  ⟨by norm_num [rowFut10], evalA, by decide⟩

/-- C6 (amended): a non-index futures position yields exactly one cash
leg, with side opposite the derivative's closing side, quantity
|lots| × lot_size, price the settlement price, and STT / stamp duty the
values 0.001·q·p and 0.00002·q·p rounded half-to-even to two decimals
(the source stores `round(x, 2)`). -/
theorem c6_futures_cash_leg (row : Row) (price : ℚ) (d : Deriv)
    (c : Option CashLeg) (_hsec : row.security_type = "Futures")
    (h : process_futures row price = some (d, c))
    (hidx : is_index_product row.ticker = false) :
    ∃ cl, c = some cl ∧
      (row.lots > 0 → d.buy_sell = "Sell" ∧ cl.buy_sell = "Buy") ∧
      (¬ row.lots > 0 → d.buy_sell = "Buy" ∧ cl.buy_sell = "Sell") ∧
      cl.position = |row.lots| * row.lot_size ∧
      cl.price = price ∧
      cl.stt = round2 (|row.lots| * row.lot_size * price * (1/1000)) ∧
      cl.stamp_duty =
        round2 (|row.lots| * row.lot_size * price * (2/100000)) := by
  unfold process_futures at h
  cases hu : futuresUnderlying row with
  | none => rw [hu] at h; exact absurd h (by simp)
  | some u =>
      rw [hu] at h
      simp only [hidx, Bool.false_eq_true, if_false, Option.some.injEq,
        Prod.mk.injEq] at h
      obtain ⟨hd, hc⟩ := h
      subst hd
      refine ⟨_, hc.symm, ?_, ?_, rfl, rfl, rfl, rfl⟩
      · intro hl; simp [hl]
      · intro hl; simp [hl]

/-- Witness for C6 at Scenario A: derivative Sell 10 @ 100; cash leg Buy
250 @ 100 with STT 25.0 and stamp duty 0.5. -/
theorem c6_witness :
    (cashA.stt = 25 ∧ cashA.stamp_duty = 1/2 ∧ cashA.buy_sell = "Buy" ∧
      cashA.position = 250 ∧ cashA.price = 100 ∧ derivA.buy_sell = "Sell" ∧
      derivA.position = 10 ∧ derivA.price = 100) ∧
    ∃ cl, (some cashA : Option CashLeg) = some cl ∧
      (rowFut10.lots > 0 → derivA.buy_sell = "Sell" ∧ cl.buy_sell = "Buy") ∧
      (¬ rowFut10.lots > 0 →
        derivA.buy_sell = "Buy" ∧ cl.buy_sell = "Sell") ∧
      cl.position = |rowFut10.lots| * rowFut10.lot_size ∧
      cl.price = 100 ∧
      cl.stt = round2 (|rowFut10.lots| * rowFut10.lot_size * 100 * (1/1000)) ∧
      cl.stamp_duty =
        round2 (|rowFut10.lots| * rowFut10.lot_size * 100 * (2/100000)) :=
  ⟨⟨rfl, rfl, rfl, rfl, rfl, rfl, rfl, rfl⟩,
   c6_futures_cash_leg rowFut10 100 derivA (some cashA) rfl evalA
     (by decide)⟩

/-- Counterexample to C6's exact tax formula: at quantity 1 and price
1/10 the stored STT cell is 0, while 0.001 × quantity × price is
1/10000. -/
theorem c6_counterexample :
    process_futures rowFutTiny (1/10) = some (derivTiny, some cashTiny) ∧
      cashTiny.stt = 0 ∧
      |rowFutTiny.lots| * rowFutTiny.lot_size * (1/10) * (1/1000) =
        1/10000 ∧
      (0 : ℚ) ≠ 1/10000 :=
  ⟨evalTinyF, rfl, by norm_num [rowFutTiny], by norm_num⟩

/-- C9: an instrument is an index product iff its uppercased ticker
contains one of INDEX, NIFTY, NZ, AF1, NSEBANK (a missing ticker is not
an index product), and every futures or option position classified as an
index product gets no cash leg. -/
theorem c9_index_classification :
    (∀ t : String, is_index_product (some t) = true ↔
        ∃ n ∈ (["INDEX", "NIFTY", "NZ", "AF1", "NSEBANK"] : List String),
          n.data <:+: (strUpper t).data) ∧
    is_index_product none = false ∧
    (∀ row price d c, process_futures row price = some (d, c) →
        is_index_product row.ticker = true → c = none) ∧
    (∀ row price d c, process_option row price = some (d, c) →
        is_index_product row.ticker = true → c = none) := by
  refine ⟨fun t => ?_, rfl, fun row price d c h hidx => ?_,
    fun row price d c h hidx => ?_⟩
  · simp only [is_index_product, Bool.or_eq_true, strHas, listHas_iff]
    constructor
    · rintro (h | (((h | h) | h) | h))
      exacts [⟨"INDEX", by simp, h⟩, ⟨"NIFTY", by simp, h⟩,
        ⟨"NZ", by simp, h⟩, ⟨"AF1", by simp, h⟩, ⟨"NSEBANK", by simp, h⟩]
    · rintro ⟨n, hn, hi⟩
      simp only [List.mem_cons, List.not_mem_nil, or_false] at hn
      rcases hn with rfl | rfl | rfl | rfl | rfl <;> tauto
  · unfold process_futures at h
    cases hu : futuresUnderlying row with
    | none => rw [hu] at h; exact absurd h (by simp)
    | some u =>
        rw [hu] at h
        simp only [hidx, if_true, Option.some.injEq, Prod.mk.injEq] at h
        exact h.2.symm
  · unfold process_option at h
    cases hu : optionUnderlying row with
    | none => rw [hu] at h; exact absurd h (by simp)
    | some u =>
        rw [hu] at h
        simp only [hidx, Bool.not_true, Bool.and_false, Bool.false_eq_true,
          if_false, Option.some.injEq, Prod.mk.injEq] at h
        exact h.2.symm

/-- Witness for C9: the single-stock-looking ticker MONZA IS Equity
contains NZ, classifies as an index product, and its futures expiry
produces no cash leg. -/
theorem c9_witness :
    is_index_product rowFutNZ.ticker = true ∧
      (∃ n ∈ (["INDEX", "NIFTY", "NZ", "AF1", "NSEBANK"] : List String),
        n.data <:+: (strUpper "MONZA IS Equity").data) ∧
      (none : Option CashLeg) = none :=
  ⟨by decide,
   (c9_index_classification.1 "MONZA IS Equity").mp (by decide),
   c9_index_classification.2.2.1 rowFutNZ 50 derivNZ none evalNZ
     (by decide)⟩

/-- Scenario C: a short single-stock put, −5 lots of 50, strike 100. -/
def rowPutS : Row :=
  { ticker := some "EFGH P100 Equity", symbol := "EFGH",
    security_type := "Put", expiry := 0, strike := some 100, lots := -5,
    lot_size := 50, underlying := some "EFGH IS Equity" }

/-- The derivative leg Scenario C produces at price 80. -/
def derivS : Deriv :=
  { underlying := "EFGH IS Equity", symbol := some "EFGH P100 Equity",
    expiry := 0, buy_sell := "Buy", strategy := "FULO", position := 5,
    price := 0, security_type := "Put", strike := some 100, lot_size := 50,
    tradenotes := "A" }

/-- The cash leg Scenario C produces at price 80: an assignment, so all
taxes are zero. -/
def cashS : CashLeg :=
  { underlying := "EFGH IS Equity", symbol := "EFGH IS Equity",
    buy_sell := "Buy", strategy := "EQLO2", position := 250, price := 100,
    security_type := "CASH", tradenotes := "A", stt := 0, stamp_duty := 0,
    taxes := 0 }

theorem evalS : process_option rowPutS 80 = some (derivS, some cashS) := by
  have hidx : is_index_product (some "EFGH P100 Equity") = false := by decide
  simp only [process_option, rowPutS, optionUnderlying, hidx]
  norm_num [hidx, derivS, cashS, is_option_itm, intrinsicValue, strikeOf,
    round2, rhe]
  decide

/-- C4 (code bug): at ITM single-stock options the derivative leg is
annotated E on a Sell close and A on a Buy close as claimed, but the
cash leg carries the SAME annotation as the derivative leg, not the
opposite one — both at the long-call exercise (E/E) and the short-put
assignment (A/A) — contradicting the source's own comment "Tradenotes
for cash: opposite of derivatives". -/
theorem c4_cash_note_equals_deriv_note :
    (process_option rowCallB 250 = some (derivB, some cashB) ∧
      derivB.buy_sell = "Sell" ∧ derivB.tradenotes = "E" ∧
      cashB.tradenotes = "E" ∧ cashB.tradenotes = derivB.tradenotes) ∧
    (process_option rowPutS 80 = some (derivS, some cashS) ∧
      derivS.buy_sell = "Buy" ∧ derivS.tradenotes = "A" ∧
      cashS.tradenotes = "A" ∧ cashS.tradenotes = derivS.tradenotes) :=
  ⟨⟨evalB, rfl, rfl, rfl, rfl⟩, ⟨evalS, rfl, rfl, rfl, rfl⟩⟩

/-- C5 (amended): for every cash leg of an ITM single-stock option, a
long position pays STT = 0.00125·q·max(0, intrinsic) and stamp duty
= 0.00003·q·strike, each rounded half-to-even to two decimals as stored
by the source; a short position pays exactly zero; and both stored
values are non-negative whenever strike and lot size are. -/
theorem c5_option_cash_taxes (row : Row) (price : ℚ) (d : Deriv)
    (cl : CashLeg) (h : process_option row price = some (d, some cl)) :
    (row.lots > 0 →
      cl.stt = round2 (|row.lots| * row.lot_size *
        max 0 (intrinsicValue row.security_type (strikeOf row) price) *
        (1/800)) ∧
      cl.stamp_duty =
        round2 (|row.lots| * row.lot_size * strikeOf row * (3/100000))) ∧
    (row.lots < 0 → cl.stt = 0 ∧ cl.stamp_duty = 0) ∧
    (0 ≤ row.lot_size → 0 ≤ strikeOf row →
      0 ≤ cl.stt ∧ 0 ≤ cl.stamp_duty) := by
  unfold process_option at h
  cases hu : optionUnderlying row with
  | none => rw [hu] at h; exact absurd h (by simp)
  | some u =>
      rw [hu] at h
      by_cases hb :
          (is_option_itm row.security_type (strikeOf row) price &&
            !is_index_product row.ticker) = true
      · simp only [hb, if_true, Option.some.injEq, Prod.mk.injEq] at h
        obtain ⟨hd, hc⟩ := h
        subst hc
        refine ⟨fun hl => ?_, fun hl => ?_, fun hls hstrike => ?_⟩
        · simp [hl]
        · simp [hl.asymm, round2_zero]
        · by_cases hl : row.lots > 0
          · simp only [hl, if_true]
            constructor
            · exact round2_nonneg _
                (by
                  have h1 : (0:ℚ) ≤ |row.lots| * row.lot_size :=
                    mul_nonneg (abs_nonneg _) hls
                  have h2 : (0:ℚ) ≤
                      max 0 (intrinsicValue row.security_type
                        (strikeOf row) price) := le_max_left 0 _
                  have h3 : (0:ℚ) ≤ |row.lots| * row.lot_size *
                      max 0 (intrinsicValue row.security_type
                        (strikeOf row) price) := mul_nonneg h1 h2
                  nlinarith)
            · exact round2_nonneg _
                (by
                  have h1 : (0:ℚ) ≤ |row.lots| * row.lot_size :=
                    mul_nonneg (abs_nonneg _) hls
                  have h3 : (0:ℚ) ≤
                      |row.lots| * row.lot_size * strikeOf row :=
                    mul_nonneg h1 hstrike
                  nlinarith)
          · simp [hl, round2_zero]
      · simp only [hb, Bool.false_eq_true, if_false, Option.some.injEq,
          Prod.mk.injEq] at h
        exact absurd h.2 (by simp)

/-- Witness for C5 at Scenario B: the long call's cash leg stores
STT 15.62 (15.625 rounded half-to-even) and stamp duty 1.5. -/
theorem c5_witness :
    (rowCallB.lots > 0 ∧ cashB.stt = 781/50 ∧ cashB.stamp_duty = 3/2) ∧
    (cashB.stt = round2 (|rowCallB.lots| * rowCallB.lot_size *
        max 0 (intrinsicValue rowCallB.security_type (strikeOf rowCallB)
          250) * (1/800)) ∧
      cashB.stamp_duty = round2 (|rowCallB.lots| * rowCallB.lot_size *
        strikeOf rowCallB * (3/100000))) :=
  ⟨⟨by norm_num [rowCallB], rfl, rfl⟩,
   (c5_option_cash_taxes rowCallB 250 derivB cashB evalB).1
     (by norm_num [rowCallB])⟩

/-- Counterexample to C5's exact STT formula: a long ITM call with
quantity 1, strike 1 and intrinsic value 1 stores STT 0 while
0.00125 × quantity × max(0, intrinsic) is 1/800. -/
theorem c5_counterexample :
    process_option rowCallTiny 2 = some (derivTinyC, some cashTinyC) ∧
      rowCallTiny.lots > 0 ∧
      cashTinyC.stt = 0 ∧
      |rowCallTiny.lots| * rowCallTiny.lot_size *
        max 0 (intrinsicValue rowCallTiny.security_type
          (strikeOf rowCallTiny) 2) * (1/800) = 1/800 ∧
      (0 : ℚ) ≠ 1/800 :=
  ⟨evalTinyC, by norm_num [rowCallTiny], rfl,
   by norm_num [rowCallTiny, intrinsicValue, strikeOf], by norm_num⟩

/-- C2 (amended): on the existing-position non-closing path,
`update_position` stores the caller-supplied strategy argument verbatim
— it does not re-derive the tag from the classifier and the new sign of
lots — so the stored tag can be stale; only initialization computes
`strategy` from (security_type, sign(lots)) via the classifier. -/
theorem c2_strategy_stored_verbatim (st : Store) (ticker : String)
    (qc : ℚ) (sec strat : String) (ctx : Option TradeContext)
    (p : PositionDetails) (seeds : List Seed) (s : Seed)
    (h : lookupPos st ticker = some p)
    (hno : ¬ |p.lots + qc| < 1/10000) :
    (∃ p2,
      lookupPos (update_position st ticker qc sec strat ctx) ticker =
        some p2 ∧
      p2.strategy = strat ∧ p2.lots = p.lots + qc) ∧
    (lookupPos (initialize_from_positions (seeds ++ [s]))
        s.bloomberg_ticker = some (seedPosition s) ∧
      (seedPosition s).strategy =
        strategyFor s.security_type s.position_lots) := by
  have hup : update_position st ticker qc sec strat ctx =
      setPos st ticker
        (update_qty { p with lots := p.lots + qc, strategy := strat }) := by
    unfold update_position
    rw [h]
    dsimp only
    rw [if_neg hno]
  exact ⟨⟨_, by rw [hup]; exact lookup_set_self _ _ _, rfl, rfl⟩,
    init_stores_last seeds s, rfl⟩

/-- Witness for C2: a −2-lot trade tagged FUSH on a 10-lot long leaves
an 8-lot long carrying the supplied FUSH tag; a zero-lot seed is stored
with the classifier tag. -/
theorem c2_witness :
    (∃ p2,
      lookupPos (update_position st0 "T" (-2) "Futures" "FUSH" none) "T" =
        some p2 ∧
      p2.strategy = "FUSH" ∧ p2.lots = pos0.lots + (-2)) ∧
    (lookupPos (initialize_from_positions ([] ++ [seedZero]))
        seedZero.bloomberg_ticker = some (seedPosition seedZero) ∧
      (seedPosition seedZero).strategy =
        strategyFor seedZero.security_type seedZero.position_lots) :=
  c2_strategy_stored_verbatim st0 "T" (-2) "Futures" "FUSH" none pos0 []
    seedZero rfl (by norm_num [pos0])

/-- Counterexample to C2 as stated: after creating a 5-lot long future
tagged FULO and applying a −2-lot trade tagged FUSH, the store holds a
3-lot long whose strategy_code is FUSH, while the classifier output for
(Futures, positive lots) is FULO — the stored tag is stale. -/
theorem c2_counterexample :
    lookupPos st2 "T" = some pos2 ∧ pos2.lots = 3 ∧
      pos2.strategy = "FUSH" ∧
      strategyFor pos2.security_type pos2.lots = "FULO" ∧
      pos2.strategy ≠ strategyFor pos2.security_type pos2.lots :=
  ⟨evalSt2, rfl, rfl, by norm_num [pos2, strategyFor]; decide,
   by norm_num [pos2, strategyFor]; decide⟩

/-- C3: applying a delta to an existing position removes it when the new
lots are within 0.0001 of zero, and it stays absent under any further
trades on other tickers; otherwise lots, quantity and direction are
updated from the new lots. -/
theorem c3_position_closure (st : Store) (ticker : String) (qc : ℚ)
    (sec strat : String) (ctx : Option TradeContext)
    (p : PositionDetails) (trades : List Trade) (hwf : WFStore st)
    (h : lookupPos st ticker = some p) :
    (|p.lots + qc| < 1/10000 →
      lookupPos (update_position st ticker qc sec strat ctx) ticker =
        none ∧
      ((∀ tr ∈ trades, tr.ticker ≠ ticker) →
        lookupPos (applyAll trades
          (update_position st ticker qc sec strat ctx)) ticker = none)) ∧
    (¬ |p.lots + qc| < 1/10000 →
      ∃ p2,
        lookupPos (update_position st ticker qc sec strat ctx) ticker =
          some p2 ∧
        p2.lots = p.lots + qc ∧
        p2.qty = (p.lots + qc) * p.lot_size ∧
        p2.direction = directionOf (p.lots + qc)) := by
  constructor
  · intro hc
    have hup : update_position st ticker qc sec strat ctx =
        delPos st ticker := by
      unfold update_position
      rw [h]
      dsimp only
      rw [if_pos hc]
    rw [hup]
    exact ⟨lookup_del_self st ticker hwf, fun htr =>
      applyAll_absent trades _ ticker (lookup_del_self st ticker hwf) htr⟩
  · intro hc
    have hup : update_position st ticker qc sec strat ctx =
        setPos st ticker
          (update_qty { p with lots := p.lots + qc, strategy := strat }) := by
      unfold update_position
      rw [h]
      dsimp only
      rw [if_neg hc]
    rw [hup]
    exact ⟨_, lookup_set_self _ _ _, rfl, rfl, rfl⟩

/-- Witness for C3 (Scenario E): a −10-lot trade on a 10-lot long
removes the position, and it is still absent after a later trade on an
unrelated ticker. -/
theorem c3_witness :
    (lookupPos (update_position st0 "T" (-10) "Futures" "FULO" none) "T" =
        none ∧
      lookupPos (applyAll [tradeU]
        (update_position st0 "T" (-10) "Futures" "FULO" none)) "T" =
        none) ∧
    pos0.lots + (-10) = 0 ∧ WFStore st0 := by
  have happ := c3_position_closure st0 "T" (-10) "Futures" "FULO" none
    pos0 [tradeU] (by decide) rfl
  refine ⟨⟨?_, ?_⟩, by norm_num [pos0], by decide⟩
  · exact (happ.1 (by norm_num [pos0])).1
  · exact (happ.1 (by norm_num [pos0])).2 (by decide)

/-- C8 (amended): initialization performs no lot-size validation and has
no error path: every seed record — including one with lot_size ≤ 0 — is
ingested, and the stored position keeps the given lot size verbatim. -/
theorem c8_no_lot_size_validation (seeds : List Seed) (s : Seed) :
    lookupPos (initialize_from_positions (seeds ++ [s]))
        s.bloomberg_ticker = some (seedPosition s) ∧
      (seedPosition s).lot_size = s.lot_size :=
  ⟨init_stores_last seeds s, rfl⟩

/-- Counterexample to C8 as stated: a seed with lot_size = 0 is stored
silently — no InvalidSeedError exists anywhere in the source — and the
stored position has the non-positive lot size. -/
theorem c8_counterexample :
    lookupPos (initialize_from_positions [seedBad]) "BAD" =
        some (seedPosition seedBad) ∧
      (seedPosition seedBad).lot_size = 0 ∧
      ¬ (0 : ℚ) < (seedPosition seedBad).lot_size :=
  ⟨init_stores_last [] seedBad, rfl,
   by norm_num [seedPosition, seedBad]⟩

/-- C10: the near-zero removal rule applies only on the
update-existing path; a trade on an absent ticker creates and stores a
position unconditionally with lots equal to the signed delta and
direction Long for positive deltas, Short otherwise (so a zero delta
yields direction Short, not Flat); initialization likewise stores every
seed — zero-lot ones included — with direction Long/Short by the same
rule. -/
theorem c10_creation_unconditional :
    (∀ (st : Store) (ticker : String) (qc : ℚ) (sec strat : String)
        (ctx : Option TradeContext), lookupPos st ticker = none →
      ∃ p,
        lookupPos (update_position st ticker qc sec strat ctx) ticker =
          some p ∧
        p.lots = qc ∧
        p.direction = (if qc > 0 then "Long" else "Short")) ∧
    (∀ (seeds : List Seed) (s : Seed),
      lookupPos (initialize_from_positions (seeds ++ [s]))
          s.bloomberg_ticker = some (seedPosition s) ∧
        (seedPosition s).direction =
          (if s.position_lots > 0 then "Long" else "Short")) := by
  constructor
  · intro st ticker qc sec strat ctx h
    unfold update_position
    rw [h]
    cases ctx with
    | none => exact ⟨_, lookup_set_self _ _ _, rfl, rfl⟩
    | some t => exact ⟨_, lookup_set_self _ _ _, rfl, rfl⟩
  · intro seeds s
    exact ⟨init_stores_last seeds s, rfl⟩

/-- Witness for C10: a zero-lot creation is stored with direction Short,
and a zero-lot seed is stored with direction Short. -/
theorem c10_witness :
    (∃ p,
      lookupPos (update_position [] "Z0" 0 "Futures" "FULO" none) "Z0" =
        some p ∧
      p.lots = 0 ∧
      p.direction = (if (0:ℚ) > 0 then "Long" else "Short")) ∧
    (if (0:ℚ) > 0 then "Long" else "Short") = "Short" ∧
    (lookupPos (initialize_from_positions ([] ++ [seedZero]))
        seedZero.bloomberg_ticker = some (seedPosition seedZero) ∧
      (seedPosition seedZero).direction =
        (if seedZero.position_lots > 0 then "Long" else "Short")) ∧
    (seedPosition seedZero).direction = "Short" :=
  ⟨c10_creation_unconditional.1 [] "Z0" 0 "Futures" "FULO" none rfl,
   by norm_num,
   c10_creation_unconditional.2 [] seedZero,
   by norm_num [seedPosition, seedZero]⟩

/-- The last summary row of a non-empty cash-leg list is the GRAND
TOTAL row built from the exact per-underlying sums. -/
theorem gcs_getLast (cash : List CashLeg) (h : cash ≠ []) :
    (generate_cash_summary cash).getLast? =
      some (grandRow
        ((uniqueKeys (cash.map fun tr => tr.underlying)).map
          (netConsideration cash)).sum
        ((uniqueKeys (cash.map fun tr => tr.underlying)).map
          (totalStt cash)).sum
        ((uniqueKeys (cash.map fun tr => tr.underlying)).map
          (totalStamp cash)).sum
        ((uniqueKeys (cash.map fun tr => tr.underlying)).map
          (totalTaxes cash)).sum) := by
  have ht := summaryLoop_totals cash
    ((uniqueKeys (cash.map fun tr => tr.underlying)).getLastD "")
    (uniqueKeys (cash.map fun tr => tr.underlying))
  unfold generate_cash_summary
  rw [if_neg h]
  dsimp only
  rw [List.getLast?_append_cons, ht.1, ht.2.1, ht.2.2.1, ht.2.2.2]
  rfl

/-- C7 (amended): for every non-empty cash-leg list the summary's final
row is the GRAND TOTAL row, and each of its consideration, STT, stamp
duty and taxes cells is the exact sum of the corresponding
per-underlying net values, rounded half-to-even to two decimals for
display (the cell can therefore differ from the sum of the already
rounded per-underlying NET DELIVERABLE cells by rounding). -/
theorem c7_grand_total (cash : List CashLeg) (h : cash ≠ []) :
    (generate_cash_summary cash).getLast? =
      some (grandRow
        ((uniqueKeys (cash.map fun tr => tr.underlying)).map
          (netConsideration cash)).sum
        ((uniqueKeys (cash.map fun tr => tr.underlying)).map
          (totalStt cash)).sum
        ((uniqueKeys (cash.map fun tr => tr.underlying)).map
          (totalStamp cash)).sum
        ((uniqueKeys (cash.map fun tr => tr.underlying)).map
          (totalTaxes cash)).sum) :=
  gcs_getLast cash h

/-- Witness for C7 on the two-leg list `cashP`. -/
theorem c7_witness :
    cashP ≠ [] ∧
      (generate_cash_summary cashP).getLast? =
        some (grandRow
          ((uniqueKeys (cashP.map fun tr => tr.underlying)).map
            (netConsideration cashP)).sum
          ((uniqueKeys (cashP.map fun tr => tr.underlying)).map
            (totalStt cashP)).sum
          ((uniqueKeys (cashP.map fun tr => tr.underlying)).map
            (totalStamp cashP)).sum
          ((uniqueKeys (cashP.map fun tr => tr.underlying)).map
            (totalTaxes cashP)).sum) :=
  ⟨by simp [cashP], c7_grand_total cashP (by simp [cashP])⟩

/-- Counterexample to C7's exact equality: on `cashP` the GRAND TOTAL
consideration cell is 0.01 (1/125 rounded), while the sum of the exact
per-underlying net considerations is 1/125 and the sum of the rounded
NET DELIVERABLE cells is 0. -/
theorem c7_counterexample :
    ((generate_cash_summary cashP).getLast?).map
        (fun r => r.consideration) = some (some (1/100)) ∧
      netConsideration cashP "A" = 1/250 ∧
      netConsideration cashP "B" = 1/250 ∧
      (netRow cashP "A").consideration = some 0 ∧
      (netRow cashP "B").consideration = some 0 ∧
      ((1 : ℚ)/100) ≠ 1/250 + 1/250 ∧
      ((1 : ℚ)/100) ≠ 0 + 0 := by
  have hA : netConsideration cashP "A" = 1/250 := by
    simp [netConsideration, buyConsideration, sellConsideration,
      cashP, legPA, legPB, List.filter_cons]
  have hB : netConsideration cashP "B" = 1/250 := by
    simp [netConsideration, buyConsideration, sellConsideration,
      cashP, legPA, legPB, List.filter_cons]
  have hsA : totalStt cashP "A" = 0 := by
    simp [totalStt, cashP, legPA, legPB, List.filter_cons]
  have hsB : totalStt cashP "B" = 0 := by
    simp [totalStt, cashP, legPA, legPB, List.filter_cons]
  have hpA : totalStamp cashP "A" = 0 := by
    simp [totalStamp, cashP, legPA, legPB, List.filter_cons]
  have hpB : totalStamp cashP "B" = 0 := by
    simp [totalStamp, cashP, legPA, legPB, List.filter_cons]
  have htA : totalTaxes cashP "A" = 0 := by
    simp [totalTaxes, cashP, legPA, legPB, List.filter_cons]
  have htB : totalTaxes cashP "B" = 0 := by
    simp [totalTaxes, cashP, legPA, legPB, List.filter_cons]
  have hu : uniqueKeys (cashP.map fun tr => tr.underlying) = ["A", "B"] := by
    simp [uniqueKeys, cashP, legPA, legPB]
  have hlast := gcs_getLast cashP (by simp [cashP])
  rw [hu] at hlast
  simp only [List.map_cons, List.map_nil, List.sum_cons, List.sum_nil,
    hA, hB, hsA, hsB, hpA, hpB, htA, htB] at hlast
  refine ⟨?_, hA, hB, ?_, ?_, by norm_num, by norm_num⟩
  · rw [hlast]
    norm_num [grandRow, round2, rhe]
  · rw [show (netRow cashP "A").consideration =
        some (round2 (netConsideration cashP "A")) from rfl, hA]
    norm_num [round2, rhe]
  · rw [show (netRow cashP "B").consideration =
        some (round2 (netConsideration cashP "B")) from rfl, hB]
    norm_num [round2, rhe]

end TradePipeline
